import Mathlib

/-!
Shallow embedding of `0x02-redis_basic/exercise.py`: a thin cache facade over a
Redis key-value store, with `count_calls` / `call_history` instrumentation
decorators and a `replay` transcript utility.

Modelling conventions:
* The external Redis server state is a single keyspace mapping string keys to
  either a byte-string value or a list of byte strings (`RVal`), as in Redis.
  The association list is consulted front-to-back, so a fresh binding consed on
  the front has the replacement semantics of Redis `SET`.
* Python byte strings are modelled by `RBytes`, tagging each byte string with
  its provenance: the UTF-8 encoding of a text string, the ASCII decimal
  rendering of an integer (what redis-py's encoder produces from a Python
  `int`, and what `INCR` maintains), the `repr` of a float, or raw bytes.
  This is sound because those encodings are injective and the decoders used by
  the code (`bytes.decode("utf-8")`, `int(...)`) are their inverses; raw bytes
  fall back to a real UTF-8 decode.
* Python exceptions are `Except Unit`; methods on the cache return
  `Cache × Except Unit β` so that mutations of the external store performed
  before an exception persist, exactly as with a real Redis server.
* `uuid.uuid4()` is nondeterministic; the generated key is passed to `store`
  as an explicit extra argument (it is not part of the recorded `args`).
* `isinstance(self._redis, redis.Redis)` is modelled by the boolean field
  `live` (a test double would make it `false`).
-/

namespace RedisBasic

/-- A Python byte string, tagged by its provenance (see module docstring). -/
inductive RBytes where
  | utf8 (s : String)
  | raw (b : List Nat)
  | decimal (n : Int)
  | floatRepr (r : String)
  deriving DecidableEq, Repr

/-- A Redis value: a byte string (from `SET`/`INCR`) or a list (from `RPUSH`). -/
inductive RVal where
  | str (b : RBytes)
  | list (l : List RBytes)
  deriving DecidableEq, Repr

/-- The state of the connected Redis database: one keyspace. -/
structure RedisState where
  db : List (String × RVal)
  deriving DecidableEq, Repr

/-- Key lookup; the first binding for a key is its current value. -/
def RedisState.lookup (st : RedisState) (k : String) : Option RVal :=
  List.lookup k st.db

/-- Redis `SET key value`: overwrites any existing value of any type. -/
def RedisState.set (st : RedisState) (k : String) (b : RBytes) : RedisState :=
  ⟨(k, RVal.str b) :: st.db⟩

/-- Redis `GET key`: `none` when absent, the byte string when present, and a
`WRONGTYPE` error when the key holds a list. -/
def RedisState.get (st : RedisState) (k : String) : Except Unit (Option RBytes) :=
  match st.lookup k with
  | none => .ok none
  | some (.str b) => .ok (some b)
  | some (.list _) => .error ()

/-- Redis `INCR key`: missing keys count from 0; a non-integer value raises.
The state is returned even on error (no mutation happens in that case). -/
def RedisState.incr (st : RedisState) (k : String) : RedisState × Except Unit Int :=
  match st.lookup k with
  | none => (⟨(k, RVal.str (.decimal 1)) :: st.db⟩, .ok 1)
  | some (.str (.decimal n)) => (⟨(k, RVal.str (.decimal (n + 1))) :: st.db⟩, .ok (n + 1))
  | some _ => (st, .error ())

/-- Redis `RPUSH key value`: appends to the list, creating it when absent;
raises `WRONGTYPE` when the key holds a plain byte string. -/
def RedisState.rpush (st : RedisState) (k : String) (b : RBytes) :
    RedisState × Except Unit Nat :=
  match st.lookup k with
  | none => (⟨(k, RVal.list [b]) :: st.db⟩, .ok 1)
  | some (.list l) => (⟨(k, RVal.list (l ++ [b])) :: st.db⟩, .ok (l.length + 1))
  | some (.str _) => (st, .error ())

/-- Redis `EXISTS key`: the number of named keys that exist (0 or 1 here). -/
def RedisState.existsCount (st : RedisState) (k : String) : Nat :=
  match st.lookup k with
  | none => 0
  | some _ => 1

/-- Redis `LRANGE` index arithmetic on a concrete list: negative indices count
from the end, then the range is clamped to the list. -/
def lrangeList (l : List RBytes) (start stop : Int) : List RBytes :=
  let n : Int := l.length
  let s := max (if start < 0 then start + n else start) 0
  let e := min (if stop < 0 then stop + n else stop) (n - 1)
  if s > e then [] else (l.drop s.toNat).take (e - s + 1).toNat

/-- Redis `LRANGE key start stop`: the empty list when the key is absent, a
`WRONGTYPE` error when it holds a plain byte string. -/
def RedisState.lrange (st : RedisState) (k : String) (start stop : Int) :
    Except Unit (List RBytes) :=
  match st.lookup k with
  | none => .ok []
  | some (.list l) => .ok (lrangeList l start stop)
  | some (.str _) => .error ()

/-- Redis `FLUSHDB`: removes every key. -/
def RedisState.flushdb (_st : RedisState) : RedisState := ⟨[]⟩

/-- A single-quote character (used when rendering Python `repr` output). -/
def squote : String := (Char.ofNat 39).toString

/-- `bytes.decode("utf-8")` applied to a byte string; raises on bytes that are
not valid UTF-8.  On tagged byte strings the decode inverts the encoding. -/
def RBytes.pyDecodeUtf8 : RBytes → Except Unit String
  | .utf8 s => .ok s
  | .decimal n => .ok (toString n)
  | .floatRepr r => .ok r
  | .raw b =>
    match String.fromUTF8? (ByteArray.mk (Array.mk (b.map (fun n => UInt8.ofNat n)))) with
    | some s => .ok s
    | none => .error ()

/-- Python `int(x)` on a byte string: parses an optionally signed decimal,
raising `ValueError` otherwise (e.g. on a float rendering like `3.14`). -/
def RBytes.pyInt : RBytes → Except Unit Int
  | .decimal n => .ok n
  | .utf8 s =>
    match s.toInt? with
    | some n => .ok n
    | none => .error ()
  | .floatRepr r =>
    match r.toInt? with
    | some n => .ok n
    | none => .error ()
  | .raw b =>
    match RBytes.pyDecodeUtf8 (.raw b) with
    | .ok s =>
      match s.toInt? with
      | some n => .ok n
      | none => .error ()
    | .error e => .error e

/-- `str()` of a Python bytes object, as produced by `"...".format(output)` in
`replay`: the `b'...'` rendering.  The escape sequences Python would apply
inside the quotes are not reproduced; no claim depends on them. -/
def RBytes.pyStr : RBytes → String
  | .utf8 s => "b" ++ squote ++ s ++ squote
  | .decimal n => "b" ++ squote ++ toString n ++ squote
  | .floatRepr r => "b" ++ squote ++ r ++ squote
  | .raw b => "b" ++ squote ++ String.intercalate "," (b.map toString) ++ squote

/-- A value accepted by `Cache.store`: `Union[str, bytes, int, float]`.
Floats are identified with their `repr` string (Python guarantees
`float(repr(f)) == f`), since IEEE arithmetic itself is never performed here. -/
inductive PyVal where
  | vstr (s : String)
  | vbytes (b : List Nat)
  | vint (n : Int)
  | vfloat (r : String)
  deriving DecidableEq, Repr

/-- redis-py's request encoder: how `self._redis.set(key, data)` serialises a
Python value to the byte string actually stored. -/
def encodeVal : PyVal → RBytes
  | .vstr s => .utf8 s
  | .vbytes b => .raw b
  | .vint n => .decimal n
  | .vfloat r => .floatRepr r

/-- Python `repr` of a stored value (escape sequences inside string/bytes
quotes are not reproduced; no claim depends on the exact rendering). -/
def pyReprVal : PyVal → String
  | .vstr s => squote ++ s ++ squote
  | .vbytes b => "b" ++ squote ++ String.intercalate "," (b.map toString) ++ squote
  | .vint n => toString n
  | .vfloat r => r

/-- `str(args)` for the one-element positional argument tuple of `store`. -/
def strArgs1 (v : PyVal) : String := "(" ++ pyReprVal v ++ ",)"

/-- The `Cache` facade: its `_redis` handle.  `live` records whether the handle
is an actual `redis.Redis` instance (the `isinstance` checks in the
decorators and in `replay`). -/
structure Cache where
  live : Bool
  redis : RedisState
  deriving DecidableEq, Repr

/-- `Cache.__init__`: connects to the store (whose pre-existing state is
`pre`) and unconditionally runs `flushdb`. -/
def Cache.init (pre : RedisState) : Cache :=
  { live := true, redis := pre.flushdb }

/-- The type of an instrumented method of the cache: it receives the facade
and an argument, and returns the facade (whose store may have been mutated)
together with either a result or a propagating exception. -/
def MethodT (α β : Type) : Type := Cache → α → Cache × Except Unit β

/-- The `count_calls` decorator: when the handle is a live Redis connection,
`INCR` the counter named by the method's qualified name, then invoke the
method.  An `INCR` error propagates instead of invoking the method. -/
def count_calls {α β : Type} (qualname : String) (method : MethodT α β) :
    MethodT α β := fun c a =>
  if c.live then
    match c.redis.incr qualname with
    | (st, .ok _) => method { c with redis := st } a
    | (st, .error e) => ({ c with redis := st }, .error e)
  else
    method c a

/-- The `call_history` decorator: `RPUSH` `str(args)` onto the
`<qualname>:inputs` list, invoke the method, then `RPUSH` its output onto the
`<qualname>:outputs` list; each push is guarded by the `isinstance` check.
`reprArgs` renders the argument tuple (Python's generic `str(args)`), and
`encodeOut` is redis-py's serialisation of the output value. -/
def call_history {α β : Type} (qualname : String) (reprArgs : α → String)
    (encodeOut : β → RBytes) (method : MethodT α β) : MethodT α β := fun c a =>
  let step1 : Cache × Except Unit Unit :=
    if c.live then
      match c.redis.rpush (qualname ++ ":inputs") (.utf8 (reprArgs a)) with
      | (st, .ok _) => ({ c with redis := st }, .ok ())
      | (st, .error e) => ({ c with redis := st }, .error e)
    else (c, .ok ())
  match step1 with
  | (c1, .error e) => (c1, .error e)
  | (c1, .ok _) =>
    match method c1 a with
    | (c2, .error e) => (c2, .error e)
    | (c2, .ok out) =>
      if c2.live then
        match c2.redis.rpush (qualname ++ ":outputs") (encodeOut out) with
        | (st, .ok _) => ({ c2 with redis := st }, .ok out)
        | (st, .error e) => ({ c2 with redis := st }, .error e)
      else (c2, .ok out)

/-- The body of `Cache.store`, with the `uuid.uuid4()` draw passed explicitly
as the first component of the argument: set the value under the fresh key and
return the key. -/
def store_body : MethodT (String × PyVal) String := fun c p =>
  ({ c with redis := c.redis.set p.1 (encodeVal p.2) }, .ok p.1)

/-- `Cache.store`, with both decorators applied (history outside, counting
inside); `functools.wraps` makes both decorators see the qualified name
`Cache.store`.  The recorded input is `str(args)` where `args` is the
one-element tuple holding the data value (the key is generated inside the
body, not an argument). -/
def Cache.store : MethodT (String × PyVal) String :=
  call_history "Cache.store" (fun p => strArgs1 p.2) RBytes.utf8
    (count_calls "Cache.store" store_body)

/-- `Cache.get(key)` with `fn=None`: the raw read, returning the byte string
or the absence marker `None`. -/
def Cache.get (c : Cache) (key : String) : Except Unit (Option RBytes) :=
  c.redis.get key

/-- `Cache.get(key, fn)` with a transform supplied: `fn` is applied to
whatever the raw read produced, including the absence marker `None`
(`return fn(data) if fn is not None else data`). -/
def Cache.getFn {β : Type} (c : Cache) (key : String)
    (fn : Option RBytes → Except Unit β) : Except Unit β :=
  match c.redis.get key with
  | .error e => .error e
  | .ok data => fn data

/-- `Cache.get_str`: `get` with `lambda x: x.decode('utf-8')`; the lambda
raises `AttributeError` when `x` is the absence marker `None`. -/
def Cache.get_str (c : Cache) (key : String) : Except Unit String :=
  c.getFn key (fun data =>
    match data with
    | none => .error ()
    | some b => b.pyDecodeUtf8)

/-- `Cache.get_int`: `get` with `lambda x: int(x)`; `int(None)` raises
`TypeError`. -/
def Cache.get_int (c : Cache) (key : String) : Except Unit Int :=
  c.getFn key (fun data =>
    match data with
    | none => .error ()
    | some b => b.pyInt)

/-- The transcript lines of `replay`'s loop: inputs and outputs are paired by
`zip`, each input is decoded as UTF-8 and each output rendered by `format`
(i.e. `str()` of a bytes object).  A decode error propagates. -/
def replayLines (name : String) : List RBytes → List RBytes → Except Unit (List String)
  | i :: ins, o :: outs =>
    match i.pyDecodeUtf8 with
    | .error e => .error e
    | .ok s =>
      match replayLines name ins outs with
      | .error e => .error e
      | .ok rest => .ok ((name ++ "(*" ++ s ++ ") -> " ++ o.pyStr) :: rest)
  | _, _ => .ok []

/-- `replay(fn)`, modelled as the list of printed lines.  The reflective
checks (`fn is None`, `hasattr(fn, '__self__')`, resolving `_redis`) reduce to
the `live` flag: when the resolved handle is not a live Redis connection the
function silently prints nothing.  Otherwise it prints the header with the
counter value (0 when the counter key does not exist), then one line per
zipped input/output pair. -/
def replay (c : Cache) (qualname : String) : Except Unit (List String) :=
  if c.live then
    match
      (if c.redis.existsCount qualname ≠ 0 then
        match c.redis.get qualname with
        | .error e => .error e
        | .ok none => .error ()
        | .ok (some b) => b.pyInt
      else .ok 0 : Except Unit Int)
    with
    | .error e => .error e
    | .ok cnt =>
      match c.redis.lrange (qualname ++ ":inputs") 0 (-1) with
      | .error e => .error e
      | .ok ins =>
        match c.redis.lrange (qualname ++ ":outputs") 0 (-1) with
        | .error e => .error e
        | .ok outs =>
          match replayLines qualname ins outs with
          | .error e => .error e
          | .ok lines =>
            .ok ((qualname ++ " was called " ++ toString cnt ++ " times:") :: lines)
  else .ok []

/-- Iterated `Cache.store`: one call per `(uuid draw, value)` pair, collecting
the returned keys; an exception aborts the remaining calls but keeps the
store state reached so far. -/
def storeN (c : Cache) : List (String × PyVal) → Cache × Except Unit (List String)
  | [] => (c, .ok [])
  | p :: rest =>
    match Cache.store c p with
    | (c1, .error e) => (c1, .error e)
    | (c1, .ok out) =>
      match storeN c1 rest with
      | (c2, .error e) => (c2, .error e)
      | (c2, .ok outs) => (c2, .ok (out :: outs))

/-- The recorded inputs history of `Cache.store` (empty when the list key is
absent or not a list). -/
def histIn (c : Cache) : List RBytes :=
  match c.redis.lookup "Cache.store:inputs" with
  | some (.list l) => l
  | _ => []

/-- The recorded outputs history of `Cache.store`. -/
def histOut (c : Cache) : List RBytes :=
  match c.redis.lookup "Cache.store:outputs" with
  | some (.list l) => l
  | _ => []

/-- The value of the `Cache.store` call counter (0 when absent). -/
def counterVal (c : Cache) : Int :=
  match c.redis.lookup "Cache.store" with
  | some (.str (.decimal n)) => n
  | _ => 0

/-- A `uuid4` draw never collides with the three instrumentation keys. -/
def keyFresh (k : String) : Prop :=
  k ≠ "Cache.store" ∧ k ≠ "Cache.store:inputs" ∧ k ≠ "Cache.store:outputs"

/-- State invariant maintained between `store` calls: the counter key holds a
decimal counter (or is absent) and both history keys hold lists (or are
absent). -/
def storeInv (c : Cache) : Prop :=
  (c.redis.lookup "Cache.store" = none ∨
    ∃ n, c.redis.lookup "Cache.store" = some (.str (.decimal n))) ∧
  (c.redis.lookup "Cache.store:inputs" = none ∨
    ∃ l, c.redis.lookup "Cache.store:inputs" = some (.list l)) ∧
  (c.redis.lookup "Cache.store:outputs" = none ∨
    ∃ l, c.redis.lookup "Cache.store:outputs" = some (.list l))

instance : DecidablePred keyFresh := fun _ => by
  unfold keyFresh; infer_instance

/-- A wrapped operation that raises without touching the store, used to study
the decorators' behaviour when the wrapped method fails. -/
def raisingMethod {α β : Type} : MethodT α β := fun c _ => (c, .error ())

/-- `Cache.store` with its body replaced by a raising operation (e.g. a
connection error inside the `SET`): same decorators, same qualified name. -/
def storeRaising : MethodT (String × PyVal) String :=
  call_history "Cache.store" (fun p => strArgs1 p.2) RBytes.utf8
    (count_calls "Cache.store" raisingMethod)

end RedisBasic

namespace RedisBasic

/-! Helper lemmas about the store model. -/

/-- Association-list lookup on a cons cell. -/
theorem lookup_cons (a b : String) (v : RVal) (l : List (String × RVal)) :
    List.lookup a ((b, v) :: l) = if a = b then some v else List.lookup a l := by
  by_cases h : a = b
  · simp [List.lookup, h]
  · have hb : (a == b) = false := beq_eq_false_iff_ne.mpr h
    simp [List.lookup, hb, h]

/-- `LRANGE key 0 -1` returns the whole list, as `replay` relies on. -/
theorem lrangeList_all (l : List RBytes) : lrangeList l 0 (-1) = l := by
  cases l with
  | nil => rfl
  | cons x xs =>
    simp only [lrangeList, List.length_cons]
    rw [if_neg (by omega : ¬ ((0 : Int) < 0)), if_pos (by omega : (-1 : Int) < 0)]
    have hs : max (0 : Int) 0 = 0 := by omega
    have he : (-1 + (((xs.length + 1 : Nat)) : Int)) ⊓ ((((xs.length + 1 : Nat)) : Int) - 1)
        = (xs.length : Int) := by push_cast; omega
    rw [hs, he]
    rw [if_neg (by omega : ¬ ((0 : Int) > (xs.length : Int)))]
    have ht : ((xs.length : Int) - 0 + 1).toNat = xs.length + 1 := by omega
    rw [ht]
    simp

/-- One completed `store` call on a well-formed live cache with a fresh key:
it succeeds and returns the key, re-establishes the invariant, appends exactly
one entry to each history list, increments the counter by one, and leaves the
value retrievable under the key. -/
theorem store_step (c : Cache) (k : String) (v : PyVal)
    (hl : c.live = true) (hk : keyFresh k) (hinv : storeInv c) :
    (Cache.store c (k, v)).2 = .ok k ∧
    (Cache.store c (k, v)).1.live = true ∧
    storeInv (Cache.store c (k, v)).1 ∧
    histIn (Cache.store c (k, v)).1 = histIn c ++ [.utf8 (strArgs1 v)] ∧
    histOut (Cache.store c (k, v)).1 = histOut c ++ [.utf8 k] ∧
    counterVal (Cache.store c (k, v)).1 = counterVal c + 1 ∧
    (Cache.store c (k, v)).1.redis.lookup k = some (.str (encodeVal v)) := by
  obtain ⟨hk1, hk2, hk3⟩ := hk
  obtain ⟨hc, hi, ho⟩ := hinv
  have hk1s : ("Cache.store" : String) ≠ k := Ne.symm hk1
  have hk2s : ("Cache.store:inputs" : String) ≠ k := Ne.symm hk2
  have hk3s : ("Cache.store:outputs" : String) ≠ k := Ne.symm hk3
  rcases hc with hc | ⟨n, hc⟩ <;> rcases hi with hi | ⟨li, hi⟩ <;> rcases ho with ho | ⟨lo, ho⟩ <;>
  · have hc' := hc
    have hi' := hi
    have ho' := ho
    unfold RedisState.lookup at hc' hi' ho'
    simp [Cache.store, call_history, count_calls, store_body, hl, hc', hi', ho',
      RedisState.rpush, RedisState.incr, RedisState.set, RedisState.lookup, RedisState.get,
      lookup_cons, storeInv, histIn, histOut, counterVal,
      hk1, hk2, hk3, hk1s, hk2s, hk3s]

/-- Iterated `store` from any well-formed live cache: all calls complete, the
returned keys are the supplied draws, the histories grow by exactly the
recorded inputs and outputs in call order, and the counter advances by the
number of calls. -/
theorem storeN_ok (calls : List (String × PyVal)) : ∀ (c : Cache),
    c.live = true → storeInv c → (∀ p ∈ calls, keyFresh p.1) →
    (storeN c calls).2 = .ok (calls.map Prod.fst) ∧
    (storeN c calls).1.live = true ∧
    storeInv (storeN c calls).1 ∧
    histIn (storeN c calls).1 = histIn c ++ calls.map (fun p => .utf8 (strArgs1 p.2)) ∧
    histOut (storeN c calls).1 = histOut c ++ calls.map (fun p => .utf8 p.1) ∧
    counterVal (storeN c calls).1 = counterVal c + calls.length := by
  induction calls with
  | nil =>
    intro c hl hinv _
    refine ⟨rfl, hl, hinv, by simp [storeN], by simp [storeN], by simp [storeN]⟩
  | cons p rest ih =>
    intro c hl hinv hks
    obtain ⟨k, v⟩ := p
    obtain ⟨h2, hlive, hinv1, hin, hout, hcnt, -⟩ :=
      store_step c k v hl (hks (k, v) (by simp)) hinv
    cases hsp : Cache.store c (k, v) with
    | mk c1 r =>
      rw [hsp] at h2 hlive hinv1 hin hout hcnt
      simp only at h2 hlive hinv1 hin hout hcnt
      subst h2
      obtain ⟨r2, rlive, rinv, rin, rout, rcnt⟩ :=
        ih c1 hlive hinv1 (fun q hq => hks q (by simp [hq]))
      cases hsn : storeN c1 rest with
      | mk c2 rr =>
        rw [hsn] at r2 rlive rinv rin rout rcnt
        simp only at r2 rlive rinv rin rout rcnt
        subst r2
        have hsN : storeN c ((k, v) :: rest) = (c2, .ok (k :: rest.map Prod.fst)) := by
          simp only [storeN, hsp, hsn]
        rw [hsN]
        refine ⟨rfl, rlive, rinv, ?_, ?_, ?_⟩
        · show histIn c2 = _
          rw [rin, hin]
          simp
        · show histOut c2 = _
          rw [rout, hout]
          simp
        · show counterVal c2 = _
          rw [rcnt, hcnt]
          simp only [List.length_cons]
          push_cast
          omega

/-- The transcript loop pairs inputs and outputs positionally and produces
exactly `min` of the two lengths many lines, each in the printed format. -/
theorem replayLines_ok (name : String) (ins : List RBytes) : ∀ (outs : List RBytes),
    (∀ b ∈ ins, ∃ s, b.pyDecodeUtf8 = .ok s) →
    ∃ lines, replayLines name ins outs = .ok lines ∧
      lines.length = min ins.length outs.length ∧
      ∀ i di dout s, ins.get? i = some di → outs.get? i = some dout →
        di.pyDecodeUtf8 = .ok s →
        lines.get? i = some (name ++ "(*" ++ s ++ ") -> " ++ dout.pyStr) := by
  induction ins with
  | nil =>
    intro outs _
    refine ⟨[], by cases outs <;> rfl, by simp, ?_⟩
    intro i di dout s h1 _ _
    simp at h1
  | cons b ins ih =>
    intro outs hdec
    cases outs with
    | nil =>
      refine ⟨[], rfl, by simp, ?_⟩
      intro i di dout s _ h2 _
      simp at h2
    | cons o outs =>
      obtain ⟨s0, hs0⟩ := hdec b (by simp)
      obtain ⟨rest, hrest, hlen, hidx⟩ := ih outs (fun x hx => hdec x (by simp [hx]))
      refine ⟨(name ++ "(*" ++ s0 ++ ") -> " ++ o.pyStr) :: rest, ?_, ?_, ?_⟩
      · simp only [replayLines, hs0, hrest]
      · simp [hlen, Nat.succ_min_succ]
      · intro i di dout s h1 h2 h3
        cases i with
        | zero =>
          simp only [List.get?_cons_zero, Option.some.injEq] at h1 h2
          subst h1; subst h2
          rw [hs0] at h3
          injection h3 with h3
          subst h3
          simp
        | succ j =>
          simp only [List.get?_cons_succ] at h1 h2 ⊢
          exact hidx j di dout s h1 h2 h3

end RedisBasic

namespace RedisBasic

/-! Claim theorems. -/

/-- C1: storing a value and immediately fetching it by the returned key with
the appropriate decode transform yields the value back: `get_str` inverts
`store` of a text value, `get_int` inverts `store` of an integer, and plain
`get` returns the stored raw bytes.  The generated key only has to differ
from the `Cache.store:outputs` history key (a `uuid4` draw always does). -/
theorem C1_store_roundtrip (pre : RedisState) (k : String)
    (hk : k ≠ "Cache.store:outputs") :
    (∀ s : String, (Cache.store (Cache.init pre) (k, .vstr s)).2 = .ok k ∧
      (Cache.store (Cache.init pre) (k, .vstr s)).1.get_str k = .ok s) ∧
    (∀ n : Int, (Cache.store (Cache.init pre) (k, .vint n)).2 = .ok k ∧
      (Cache.store (Cache.init pre) (k, .vint n)).1.get_int k = .ok n) ∧
    (∀ b : List Nat, (Cache.store (Cache.init pre) (k, .vbytes b)).2 = .ok k ∧
      (Cache.store (Cache.init pre) (k, .vbytes b)).1.get k = .ok (some (.raw b))) := by
  have hks : ("Cache.store:outputs" : String) ≠ k := Ne.symm hk
  refine ⟨fun s => ?_, fun n => ?_, fun b => ?_⟩ <;>
    simp [Cache.store, call_history, count_calls, store_body, Cache.init,
      RedisState.flushdb, Cache.get_str, Cache.get_int, Cache.get, Cache.getFn,
      RedisState.get, RedisState.set, RedisState.incr, RedisState.rpush,
      RedisState.lookup, List.lookup_nil, lookup_cons, encodeVal,
      RBytes.pyDecodeUtf8, RBytes.pyInt, hks, hk]

/-- Witness for C1 at concrete inputs: a text, an integer and a bytes value
each round-trip through a freshly constructed cache. -/
theorem C1_store_roundtrip_witness :
    ("k0" ≠ "Cache.store:outputs") ∧
    ((Cache.store (Cache.init ⟨[]⟩) ("k0", .vstr "hello")).2 = .ok "k0" ∧
      (Cache.store (Cache.init ⟨[]⟩) ("k0", .vstr "hello")).1.get_str "k0" = .ok "hello") ∧
    ((Cache.store (Cache.init ⟨[]⟩) ("k0", .vint (-7))).2 = .ok "k0" ∧
      (Cache.store (Cache.init ⟨[]⟩) ("k0", .vint (-7))).1.get_int "k0" = .ok (-7)) ∧
    ((Cache.store (Cache.init ⟨[]⟩) ("k0", .vbytes [0, 255])).2 = .ok "k0" ∧
      (Cache.store (Cache.init ⟨[]⟩) ("k0", .vbytes [0, 255])).1.get "k0"
        = .ok (some (.raw [0, 255]))) :=
  ⟨by decide,
    (C1_store_roundtrip ⟨[]⟩ "k0" (by decide)).1 "hello",
    (C1_store_roundtrip ⟨[]⟩ "k0" (by decide)).2.1 (-7),
    (C1_store_roundtrip ⟨[]⟩ "k0" (by decide)).2.2 [0, 255]⟩

/-- C2: after `N` completed `store` calls on a fresh cache (with generated
keys distinct from the instrumentation keys, as `uuid4` draws are), the inputs
and outputs history lists both have length `N`, the outputs list records
exactly the serialised return values of the calls in order, and the inputs
list records the serialised argument tuples in order. -/
theorem C2_history_lengths (pre : RedisState) (calls : List (String × PyVal))
    (hkeys : ∀ p ∈ calls, keyFresh p.1) :
    (storeN (Cache.init pre) calls).2 = .ok (calls.map Prod.fst) ∧
    (histIn (storeN (Cache.init pre) calls).1).length = calls.length ∧
    (histOut (storeN (Cache.init pre) calls).1).length = calls.length ∧
    histOut (storeN (Cache.init pre) calls).1 = (calls.map Prod.fst).map RBytes.utf8 ∧
    histIn (storeN (Cache.init pre) calls).1 =
      calls.map (fun p => .utf8 (strArgs1 p.2)) := by
  have hinv : storeInv (Cache.init pre) := ⟨Or.inl rfl, Or.inl rfl, Or.inl rfl⟩
  obtain ⟨h2, -, -, hin, hout, -⟩ := storeN_ok calls (Cache.init pre) rfl hinv hkeys
  have hin0 : histIn (Cache.init pre) = [] := rfl
  have hout0 : histOut (Cache.init pre) = [] := rfl
  rw [hin0, List.nil_append] at hin
  rw [hout0, List.nil_append] at hout
  refine ⟨h2, ?_, ?_, ?_, hin⟩
  · rw [hin]; simp
  · rw [hout]; simp
  · rw [hout]; simp

/-- Witness for C2: two concrete calls leave both history lists at length two,
with the outputs list recording the returned keys. -/
theorem C2_history_lengths_witness :
    (∀ p ∈ [("k1", PyVal.vstr "a"), ("k2", PyVal.vint 5)], keyFresh p.1) ∧
    ((storeN (Cache.init ⟨[]⟩) [("k1", PyVal.vstr "a"), ("k2", PyVal.vint 5)]).2 =
      .ok (List.map Prod.fst [("k1", PyVal.vstr "a"), ("k2", PyVal.vint 5)]) ∧
    (histIn (storeN (Cache.init ⟨[]⟩)
      [("k1", PyVal.vstr "a"), ("k2", PyVal.vint 5)]).1).length = 2 ∧
    (histOut (storeN (Cache.init ⟨[]⟩)
      [("k1", PyVal.vstr "a"), ("k2", PyVal.vint 5)]).1).length = 2 ∧
    histOut (storeN (Cache.init ⟨[]⟩)
      [("k1", PyVal.vstr "a"), ("k2", PyVal.vint 5)]).1 =
      (List.map Prod.fst [("k1", PyVal.vstr "a"), ("k2", PyVal.vint 5)]).map RBytes.utf8 ∧
    histIn (storeN (Cache.init ⟨[]⟩)
      [("k1", PyVal.vstr "a"), ("k2", PyVal.vint 5)]).1 =
      [("k1", PyVal.vstr "a"), ("k2", PyVal.vint 5)].map (fun p => .utf8 (strArgs1 p.2))) :=
  ⟨by decide, C2_history_lengths ⟨[]⟩ [("k1", PyVal.vstr "a"), ("k2", PyVal.vint 5)] (by decide)⟩

/-- C3: after `N` completed `store` calls on a freshly constructed (hence
live) cache, the counter stored under `Cache.store` equals `N`. -/
theorem C3_counter_counts (pre : RedisState) (calls : List (String × PyVal))
    (hkeys : ∀ p ∈ calls, keyFresh p.1) :
    (storeN (Cache.init pre) calls).2 = .ok (calls.map Prod.fst) ∧
    counterVal (storeN (Cache.init pre) calls).1 = calls.length := by
  have hinv : storeInv (Cache.init pre) := ⟨Or.inl rfl, Or.inl rfl, Or.inl rfl⟩
  obtain ⟨h2, -, -, -, -, hcnt⟩ := storeN_ok calls (Cache.init pre) rfl hinv hkeys
  have hc0 : counterVal (Cache.init pre) = 0 := rfl
  rw [hc0, zero_add] at hcnt
  exact ⟨h2, hcnt⟩

/-- Witness for C3: after three concrete calls the counter equals three. -/
theorem C3_counter_counts_witness :
    (∀ p ∈ [("a1", PyVal.vint 1), ("a2", PyVal.vint 2), ("a3", PyVal.vint 3)], keyFresh p.1) ∧
    ((storeN (Cache.init ⟨[]⟩)
        [("a1", PyVal.vint 1), ("a2", PyVal.vint 2), ("a3", PyVal.vint 3)]).2 =
      .ok (List.map Prod.fst
        [("a1", PyVal.vint 1), ("a2", PyVal.vint 2), ("a3", PyVal.vint 3)]) ∧
    counterVal (storeN (Cache.init ⟨[]⟩)
        [("a1", PyVal.vint 1), ("a2", PyVal.vint 2), ("a3", PyVal.vint 3)]).1 =
      List.length [("a1", PyVal.vint 1), ("a2", PyVal.vint 2), ("a3", PyVal.vint 3)]) :=
  ⟨by decide, C3_counter_counts ⟨[]⟩
    [("a1", PyVal.vint 1), ("a2", PyVal.vint 2), ("a3", PyVal.vint 3)] (by decide)⟩

end RedisBasic

namespace RedisBasic

/-- C4 counterexample: on a freshly flushed cache the key `missing` is absent,
yet `Cache.get` with a supplied transform does NOT pass the absence marker
through untransformed — the result is the transform's output on the marker,
not the marker.  (`return fn(data) if fn is not None else data` applies `fn`
whenever it is supplied.) -/
theorem C4_counterexample_fn_applied :
    Cache.getFn (Cache.init ⟨[]⟩) "missing"
      (fun _ => Except.ok (some (RBytes.utf8 "APPLIED"))) = .ok (some (.utf8 "APPLIED")) ∧
    (Except.ok (some (RBytes.utf8 "APPLIED")) : Except Unit (Option RBytes)) ≠ .ok none := by
  constructor
  · rfl
  · simp

/-- C4 (amended): for every key absent from the store and every supplied
transform `fn`, `Cache.get(key, fn)` applies `fn` to the absence marker and
returns `fn(None)`; the marker is returned untransformed only on the
transform-free path. -/
theorem C4_absent_fn_applied {β : Type} (c : Cache) (key : String)
    (fn : Option RBytes → Except Unit β) (h : c.redis.lookup key = none) :
    Cache.getFn c key fn = fn none := by
  simp [Cache.getFn, RedisState.get, h]

/-- Witness for the amended C4: a concrete transform receives the marker. -/
theorem C4_absent_fn_applied_witness :
    (Cache.init ⟨[]⟩).redis.lookup "missing" = none ∧
    Cache.getFn (Cache.init ⟨[]⟩) "missing" (fun _ => Except.ok (7 : Int)) = Except.ok 7 :=
  ⟨rfl, C4_absent_fn_applied (Cache.init ⟨[]⟩) "missing" (fun _ => Except.ok 7) rfl⟩

/-- C5: constructing the facade flushes every key of the connected store, so a
read of any key — in particular any key that existed before construction —
returns no data. -/
theorem C5_init_flushes (pre : RedisState) (key : String) :
    Cache.get (Cache.init pre) key = .ok none := by
  simp [Cache.get, Cache.init, RedisState.flushdb, RedisState.get,
    RedisState.lookup, List.lookup]

/-- C6: fetching an absent key with no transform supplied returns the absence
marker and raises no error. -/
theorem C6_get_absent_none (c : Cache) (key : String)
    (h : c.redis.lookup key = none) :
    Cache.get c key = .ok none := by
  simp [Cache.get, RedisState.get, h]

/-- Witness for C6 on a concrete empty cache. -/
theorem C6_get_absent_none_witness :
    (Cache.init ⟨[]⟩).redis.lookup "nope" = none ∧
    Cache.get (Cache.init ⟨[]⟩) "nope" = .ok none :=
  ⟨rfl, C6_get_absent_none (Cache.init ⟨[]⟩) "nope" rfl⟩

/-- C7: on a live connection, `replay` prints the header and then one
transcript line per invocation in the form `name(*args) -> output`, pairing
the inputs and outputs lists positionally; the number of transcript lines is
exactly `min` of the two list lengths, so a mismatch stops at the shorter
list instead of erroring. -/
theorem C7_replay_pairs (c : Cache) (name : String) (cnt : Int)
    (ins outs : List RBytes)
    (hl : c.live = true)
    (hcnt : c.redis.lookup name = some (.str (.decimal cnt)))
    (hi : c.redis.lookup (name ++ ":inputs") = some (.list ins))
    (ho : c.redis.lookup (name ++ ":outputs") = some (.list outs))
    (hdec : ∀ b ∈ ins, ∃ s, b.pyDecodeUtf8 = .ok s) :
    ∃ lines,
      replay c name = .ok ((name ++ " was called " ++ toString cnt ++ " times:") :: lines) ∧
      lines.length = min ins.length outs.length ∧
      (∀ i di dout s, ins.get? i = some di → outs.get? i = some dout →
        di.pyDecodeUtf8 = .ok s →
        lines.get? i = some (name ++ "(*" ++ s ++ ") -> " ++ dout.pyStr)) := by
  obtain ⟨lines, hlines, hlen, hidx⟩ := replayLines_ok name ins outs hdec
  refine ⟨lines, ?_, hlen, hidx⟩
  simp [replay, hl, RedisState.existsCount, hcnt, RedisState.get, RedisState.lrange,
    hi, ho, lrangeList_all, RBytes.pyInt, hlines]

/-- Witness for C7 on a concrete state with two recorded inputs but only one
recorded output: exactly `min 2 1` transcript lines are produced. -/
theorem C7_replay_pairs_witness :
    (Cache.mk true ⟨[("f", .str (.decimal 2)),
        ("f:inputs", .list [.utf8 "(1,)", .utf8 "(2,)"]),
        ("f:outputs", .list [.utf8 "ka"])]⟩).live = true ∧
    (Cache.mk true ⟨[("f", .str (.decimal 2)),
        ("f:inputs", .list [.utf8 "(1,)", .utf8 "(2,)"]),
        ("f:outputs", .list [.utf8 "ka"])]⟩).redis.lookup "f"
      = some (.str (.decimal 2)) ∧
    (∃ lines,
      replay (Cache.mk true ⟨[("f", .str (.decimal 2)),
          ("f:inputs", .list [.utf8 "(1,)", .utf8 "(2,)"]),
          ("f:outputs", .list [.utf8 "ka"])]⟩) "f" =
        .ok (("f" ++ " was called " ++ toString (2 : Int) ++ " times:") :: lines) ∧
      lines.length = min (List.length [RBytes.utf8 "(1,)", RBytes.utf8 "(2,)"])
        (List.length [RBytes.utf8 "ka"]) ∧
      (∀ i di dout s,
        List.get? [RBytes.utf8 "(1,)", RBytes.utf8 "(2,)"] i = some di →
        List.get? [RBytes.utf8 "ka"] i = some dout →
        di.pyDecodeUtf8 = .ok s →
        lines.get? i = some ("f" ++ "(*" ++ s ++ ") -> " ++ dout.pyStr))) := by
  refine ⟨rfl, by decide, ?_⟩
  exact C7_replay_pairs _ "f" 2 [RBytes.utf8 "(1,)", RBytes.utf8 "(2,)"] [RBytes.utf8 "ka"]
    rfl (by decide) (by decide) (by decide)
    (by
      intro b hb
      simp at hb
      rcases hb with hb | hb <;> subst hb <;> exact ⟨_, rfl⟩)

/-- C8: on an operation with zero recorded calls (counter key absent, history
keys absent), `replay` prints a count of zero and no transcript lines. -/
theorem C8_replay_zero (c : Cache) (name : String) (hl : c.live = true)
    (h0 : c.redis.lookup name = none)
    (hi : c.redis.lookup (name ++ ":inputs") = none)
    (ho : c.redis.lookup (name ++ ":outputs") = none) :
    replay c name = .ok [name ++ " was called 0 times:"] := by
  have h00 : toString (0 : Int) = "0" := rfl
  simp [replay, hl, RedisState.existsCount, h0, RedisState.lrange, hi, ho,
    replayLines, h00, String.append_assoc]

/-- Witness for C8 on a freshly flushed cache. -/
theorem C8_replay_zero_witness :
    (Cache.init ⟨[]⟩).live = true ∧
    (Cache.init ⟨[]⟩).redis.lookup "Cache.store" = none ∧
    (Cache.init ⟨[]⟩).redis.lookup ("Cache.store" ++ ":inputs") = none ∧
    (Cache.init ⟨[]⟩).redis.lookup ("Cache.store" ++ ":outputs") = none ∧
    replay (Cache.init ⟨[]⟩) "Cache.store" = .ok ["Cache.store" ++ " was called 0 times:"] :=
  ⟨rfl, rfl, rfl, rfl, C8_replay_zero (Cache.init ⟨[]⟩) "Cache.store" rfl rfl rfl rfl⟩

/-- C9: when the wrapped operation raises, the instrumentation's earlier side
effects persist: the input string was already appended and the counter already
incremented, but no output entry is appended, so starting from equal-length
histories the inputs list ends up exactly one entry longer than the outputs
list, and the exception propagates. -/
theorem C9_raising_instrumentation (c : Cache) (k : String) (v : PyVal)
    (hl : c.live = true) (hinv : storeInv c)
    (heq : (histIn c).length = (histOut c).length) :
    (storeRaising c (k, v)).2 = .error () ∧
    histIn (storeRaising c (k, v)).1 = histIn c ++ [.utf8 (strArgs1 v)] ∧
    histOut (storeRaising c (k, v)).1 = histOut c ∧
    counterVal (storeRaising c (k, v)).1 = counterVal c + 1 ∧
    (histIn (storeRaising c (k, v)).1).length =
      (histOut (storeRaising c (k, v)).1).length + 1 := by
  have main : (storeRaising c (k, v)).2 = .error () ∧
      histIn (storeRaising c (k, v)).1 = histIn c ++ [.utf8 (strArgs1 v)] ∧
      histOut (storeRaising c (k, v)).1 = histOut c ∧
      counterVal (storeRaising c (k, v)).1 = counterVal c + 1 := by
    obtain ⟨hc, hi, ho⟩ := hinv
    rcases hc with hc | ⟨n, hc⟩ <;> rcases hi with hi | ⟨li, hi⟩ <;>
    · have hc' := hc
      have hi' := hi
      unfold RedisState.lookup at hc' hi'
      simp [storeRaising, call_history, count_calls, raisingMethod, hl, hc', hi',
        RedisState.rpush, RedisState.incr, RedisState.lookup, lookup_cons,
        histIn, histOut, counterVal]
  obtain ⟨m1, m2, m3, m4⟩ := main
  refine ⟨m1, m2, m3, m4, ?_⟩
  rw [m2, m3, List.length_append, heq]
  rfl

/-- Witness for C9 on a freshly flushed cache: the failed call leaves one
recorded input, no recorded output, and a counter of one. -/
theorem C9_raising_instrumentation_witness :
    (Cache.init ⟨[]⟩).live = true ∧
    storeInv (Cache.init ⟨[]⟩) ∧
    (histIn (Cache.init ⟨[]⟩)).length = (histOut (Cache.init ⟨[]⟩)).length ∧
    ((storeRaising (Cache.init ⟨[]⟩) ("k0", .vstr "x")).2 = .error () ∧
    histIn (storeRaising (Cache.init ⟨[]⟩) ("k0", .vstr "x")).1 =
      histIn (Cache.init ⟨[]⟩) ++ [.utf8 (strArgs1 (.vstr "x"))] ∧
    histOut (storeRaising (Cache.init ⟨[]⟩) ("k0", .vstr "x")).1 =
      histOut (Cache.init ⟨[]⟩) ∧
    counterVal (storeRaising (Cache.init ⟨[]⟩) ("k0", .vstr "x")).1 =
      counterVal (Cache.init ⟨[]⟩) + 1 ∧
    (histIn (storeRaising (Cache.init ⟨[]⟩) ("k0", .vstr "x")).1).length =
      (histOut (storeRaising (Cache.init ⟨[]⟩) ("k0", .vstr "x")).1).length + 1) := by
  refine ⟨rfl, ⟨Or.inl rfl, Or.inl rfl, Or.inl rfl⟩, rfl, ?_⟩
  exact C9_raising_instrumentation (Cache.init ⟨[]⟩) "k0" (.vstr "x") rfl
    ⟨Or.inl rfl, Or.inl rfl, Or.inl rfl⟩ rfl

/-- C10: on an absent key the typed getters raise — their decode transform is
applied to the absence marker (`None.decode` / `int(None)`) — while the
transform-free `get` returns the marker safely. -/
theorem C10_typed_getters_raise (c : Cache) (key : String)
    (h : c.redis.lookup key = none) :
    Cache.get_str c key = .error () ∧ Cache.get_int c key = .error () ∧
    Cache.get c key = .ok none := by
  simp [Cache.get_str, Cache.get_int, Cache.get, Cache.getFn, RedisState.get, h]

/-- Witness for C10 on a concrete empty cache. -/
theorem C10_typed_getters_raise_witness :
    (Cache.init ⟨[]⟩).redis.lookup "gone" = none ∧
    (Cache.get_str (Cache.init ⟨[]⟩) "gone" = .error () ∧
      Cache.get_int (Cache.init ⟨[]⟩) "gone" = .error () ∧
      Cache.get (Cache.init ⟨[]⟩) "gone" = .ok none) :=
  ⟨rfl, C10_typed_getters_raise (Cache.init ⟨[]⟩) "gone" rfl⟩

end RedisBasic
